import Mathlib

/-!
Verification of the Roundnet-Germany scoreboard core
(`src/js/Scoreboard.js`) against its natural-language specification.

The engine is embedded shallowly:

* JavaScript numbers that the code keeps integral are modelled as `Int`
  (scores, point indices, settings).  The serve-rotation arithmetic
  divides odd integers by two before applying `%` and `Math.floor`;
  those two steps are modelled exactly by doubling: the JS value `x`
  (always a multiple of 1/2 there) is carried as the integer `2*x`, JS
  `%` on such values is `Int.tmod` on the doubled representation
  (JS `%` truncates toward zero and takes the dividend's sign, exactly
  like `Int.tmod`) and `Math.floor` of `x` is `Int.fdiv` of the doubled
  value by 2 (`fdiv` rounds toward negative infinity, like
  `Math.floor`).
* JS array indexing `arr[i]` which can yield `undefined` is modelled as
  `Option`; a thrown `TypeError` (property access on
  `undefined`/`null`) is modelled as `Except.error ()`.
* DOM-sourced values that may be absent (`null`/`undefined`) are
  `Option String`; JS string truthiness is `s ≠ ""`.
* Event-log entries are records with optional `team`/`score`/`set`
  fields, since the log is rehydrated from an external store.
-/

deriving instance DecidableEq for Except

namespace Scoreboard

/-- The `set` field of an event: a set number, the literal string
`"squad"` used by squad-score events, or absent. -/
inductive SetField where
  | num (n : Int)
  | squad
  | absent
deriving DecidableEq

/-- An entry of `this.event_history`.  `type` is the tag string; the
remaining fields are present or absent depending on the producer. -/
structure Event where
  type : String
  team : Option String := none
  score : Option Int := none
  set : SetField := .absent
deriving DecidableEq

/-- JS loose equality `event.set == set` against a numeric set value:
`undefined == n` and `"squad" == n` are false. -/
def setFieldEq (s : SetField) (n : Int) : Bool :=
  match s with
  | .num m => m == n
  | .squad => false
  | .absent => false

/-- JS truthiness test `event.team && typeof event.team === 'string'`:
the field must be present and a non-empty string. -/
def teamTruthy (t : Option String) : Bool :=
  match t with
  | some s => !(s == "")
  | none => false

/-- JS `event.score > newScore` where `score` may be absent
(`undefined > n` is false). -/
def scoreGt (s : Option Int) (n : Int) : Bool :=
  match s with
  | some v => n < v
  | none => false

/-- JS `Number(ev.score) || 0`: an absent score reads as 0. -/
def jsNumberOr0 (s : Option Int) : Int :=
  match s with
  | some v => v
  | none => 0

/-- JS `toLowerCase()` (ASCII part, which is all the code compares).
Structurally recursive so that concrete evaluation reduces. -/
def jsToLower (s : String) : String :=
  ⟨s.data.map Char.toLower⟩

/-! ### Set winner and overtime classifier (`setWinner`, `isInOvertime`) -/

/-- `setWinner` from `Scoreboard.js`, as a pure function of the two
scores and the game settings (the method reads them from state).
Returns `some "a"` / `some "b"` / `none` like the JS
`'a'` / `'b'` / `null`. -/
def setWinnerCore (scoreA scoreB win_points min_win_margin hardcap : Int) :
    Option String :=
  if hardcap ≤ scoreA ∨ hardcap ≤ scoreB then
    some (if scoreB < scoreA then "a" else "b")
  else if win_points ≤ scoreA ∨ win_points ≤ scoreB then
    if min_win_margin ≤ |scoreA - scoreB| then
      some (if scoreB < scoreA then "a" else "b")
    else none
  else none

/-- `isInOvertime`'s score test, as a pure function of the two scores
and the settings: hardcap reached, or winning score reached with the
margin not met. -/
def isOvertimeCore (scoreA scoreB win_points min_win_margin hardcap : Int) :
    Bool :=
  if hardcap ≤ scoreA ∨ hardcap ≤ scoreB then true
  else if win_points ≤ scoreA ∨ win_points ≤ scoreB then
    |scoreA - scoreB| < min_win_margin
  else false

/-! ### Event log operations -/

/-- `handleEventHistory`: truncate the log to its most recent 200
entries (`slice(-200)`) when it exceeds 200. -/
def handleEventHistory (h : List Event) : List Event :=
  if 200 < h.length then h.drop (h.length - 200) else h

/-- An append to the event log as performed by the input handlers
(`event_history.push`) followed by the truncation `handleEventHistory`
that runs before the log is published (`uploadData`/`updateUI`). -/
def appendEvent (h : List Event) (e : Event) : List Event :=
  handleEventHistory (h ++ [e])

/-- The predicate of `removeEventHistoryEvents`'s scan: a score event
of this team and set whose recorded score exceeds the new score. -/
def removeMatch (team : String) (newScore : Int) (set : Int) (e : Event) :
    Bool :=
  e.type == "score" && e.team == some team && scoreGt e.score newScore &&
    setFieldEq e.set set

/-- `removeEventHistoryEvents`: walk a reversed copy of the log, find
the first (i.e. most recent) matching score event, and splice exactly
that entry out of the original log; no match leaves the log unchanged. -/
def removeEventHistoryEvents (team : String) (newScore : Int) (set : Int)
    (h : List Event) : List Event :=
  match h.reverse.findIdx? (removeMatch team newScore set) with
  | some i => h.eraseIdx (h.length - 1 - i)
  | none => h

/-- The `oldScore` lookup of the score-input handler: the score of the
most recent event matching the event type, team and (for non-squad
edits) set, defaulting to 0. -/
def oldScoreLookup (h : List Event) (team : String) (set : Int)
    (isSquad : Bool) : Int :=
  match h.reverse.find? (fun ev =>
      ev.type == (if isSquad then "squad_score" else "score") &&
      ev.team == some team &&
      (isSquad || setFieldEq ev.set set)) with
  | some ev => jsNumberOr0 ev.score
  | none => 0

/-- The score-input handler's effect on the event log (`OnScoreEdit`):
a decrease on a non-squad score removes one historical event via
`removeEventHistoryEvents`; every other edit appends a new event. -/
def onScoreEdit (h : List Event) (team : String) (set : Int)
    (newScore : Int) (isSquad : Bool) : List Event :=
  let oldScore := oldScoreLookup h team set isSquad
  if newScore < oldScore ∧ isSquad = false then
    removeEventHistoryEvents team newScore set h
  else
    h ++ [{ type := if isSquad then "squad_score" else "score",
            team := some team, score := some newScore,
            set := if isSquad then .squad else .num set }]

/-- `getLastResetIndex`: index of the most recent `reset` event, `-1`
when there is none (reverse scan, first hit). -/
def getLastResetIndex (h : List Event) : Int :=
  match h.reverse.findIdx? (fun e => e.type == "reset") with
  | some i => ((h.length - 1 - i : Nat) : Int)
  | none => -1

/-- The filter of `getScoreHistory`: a score event of the requested
set that carries a non-empty team string and a present score field. -/
def scoreHistPred (set : Int) (e : Event) : Bool :=
  e.type == "score" && setFieldEq e.set set && teamTruthy e.team &&
    e.score.isSome

/-- `getScoreHistory` on an event log: drop everything up to and
including the most recent reset, then filter to well-formed score
events of the requested set. -/
def getScoreHistoryL (h : List Event) (set : Int) : List Event :=
  ((h.drop (getLastResetIndex h + 1).toNat).filter (scoreHistPred set))

/-- Specification-side view of "the subsequence strictly after the most
recent reset": the longest reset-free suffix of the log. -/
def afterLastReset (h : List Event) : List Event :=
  (h.reverse.takeWhile (fun e => !(e.type == "reset"))).reverse

/-- The filter exactly as the specification sentence words it: score
events whose set matches (no demand on the team or score fields). -/
def scoreHistClaimPred (set : Int) (e : Event) : Bool :=
  e.type == "score" && setFieldEq e.set set

/-! ### Serve/receive rotation engine -/

/-- JS array read `arr[i]` with a possibly negative index: out of
bounds yields `undefined`. -/
def jsGet (l : List String) (i : Int) : Option String :=
  if i < 0 then none else l.get? i.toNat

/-- JS `arr.indexOf(x)` for a possibly absent `x`: first index of the
value, `-1` when not found (or when `x` is `null`/`undefined`). -/
def jsIndexOf (l : List String) (x : Option String) : Int :=
  match x with
  | some s =>
      match l.findIdx? (fun y => y == s) with
      | some i => (i : Int)
      | none => -1
  | none => -1

/-- The 8-way branch of `getServingPlayerAtPoint` selecting the serve
order; an unrecognised (server, receiver) pair leaves it undefined. -/
def serveOrderFor (sv sr : Option String) : Option (List String) :=
  if sv = some "a" ∧ sr = some "c" then some ["a", "d", "b", "c"]
  else if sv = some "a" ∧ sr = some "d" then some ["a", "c", "b", "d"]
  else if sv = some "b" ∧ sr = some "c" then some ["b", "d", "a", "c"]
  else if sv = some "b" ∧ sr = some "d" then some ["b", "c", "a", "d"]
  else if sv = some "c" ∧ sr = some "a" then some ["c", "b", "d", "a"]
  else if sv = some "c" ∧ sr = some "b" then some ["c", "a", "d", "b"]
  else if sv = some "d" ∧ sr = some "a" then some ["d", "b", "c", "a"]
  else if sv = some "d" ∧ sr = some "b" then some ["d", "a", "c", "b"]
  else none

/-- The 8-way branch of `getReceivingPlayerAtPoint`: normal receiving
order and the two overtime receiving orders (keyed by win_points 15 or
21). -/
def receiveOrdersFor (sv sr : Option String) :
    Option (List String × List String × List String) :=
  if sv = some "a" ∧ sr = some "c" then
    some (["c", "b", "a", "c", "d", "a", "b", "d"],
          ["a", "d", "b", "c"], ["b", "d", "a", "c"])
  else if sv = some "a" ∧ sr = some "d" then
    some (["d", "b", "a", "d", "c", "a", "b", "c"],
          ["a", "c", "b", "d"], ["b", "c", "a", "d"])
  else if sv = some "b" ∧ sr = some "c" then
    some (["c", "a", "b", "c", "d", "b", "a", "d"],
          ["b", "d", "a", "c"], ["a", "d", "b", "c"])
  else if sv = some "b" ∧ sr = some "d" then
    some (["d", "a", "b", "d", "c", "b", "a", "c"],
          ["b", "c", "a", "d"], ["a", "c", "b", "d"])
  else if sv = some "c" ∧ sr = some "a" then
    some (["a", "d", "c", "a", "b", "c", "d", "b"],
          ["c", "b", "d", "a"], ["d", "b", "c", "a"])
  else if sv = some "c" ∧ sr = some "b" then
    some (["b", "d", "c", "b", "a", "c", "d", "a"],
          ["c", "a", "d", "b"], ["d", "a", "c", "b"])
  else if sv = some "d" ∧ sr = some "a" then
    some (["a", "c", "d", "a", "b", "d", "c", "b"],
          ["d", "b", "c", "a"], ["c", "b", "d", "a"])
  else if sv = some "d" ∧ sr = some "b" then
    some (["b", "c", "d", "b", "a", "d", "c", "a"],
          ["d", "a", "c", "b"], ["c", "a", "d", "b"])
  else none

/-- `getServingPlayerAtPoint`, as a function of the starting
configuration, `win_points`, the already-computed overtime flag and the
point index.  When no branch defined `serveOrder`, the subsequent
`serveOrder.indexOf(...)` throws a `TypeError` (`Except.error`).  The
serve-step arithmetic divides an odd integer by 2 before `%` and
`Math.floor`; it is carried doubled, see the module comment. -/
def getServingPlayerAtPointCore (sv sr : Option String) (win_points : Int)
    (isOvertime : Bool) (pointIndex : Int) : Except Unit (Option String) :=
  match serveOrderFor sv sr with
  | none => .error ()
  | some serveOrder =>
    let startIndex := jsIndexOf serveOrder sv
    if pointIndex = 0 then .ok sv
    else
      let steps : Int :=
        if isOvertime then
          let pointsTillOvertime := win_points * 2 - 2
          ((((pointsTillOvertime + 1).tmod 8) +
            2 * ((pointIndex - pointsTillOvertime).tmod 4)).tmod 8).fdiv 2
        else ((pointIndex + 1).tmod 8).fdiv 2
      .ok (jsGet serveOrder ((startIndex + steps).tmod 4))

/-- `getReceivingPlayerAtPoint`, same conventions as the serving
lookup.  In overtime the receiving order keyed to `win_points == 15`
is used for 15, and the 21 order for every other value. -/
def getReceivingPlayerAtPointCore (sv sr : Option String) (win_points : Int)
    (isOvertime : Bool) (pointIndex : Int) : Except Unit (Option String) :=
  match receiveOrdersFor sv sr with
  | none => .error ()
  | some (receivingOrder, overtimeOrder15, overtimeOrder21) =>
    let startIndex := jsIndexOf receivingOrder sr
    if pointIndex = 0 then .ok sr
    else if isOvertime then
      let steps := (pointIndex - 1).tmod 4
      if win_points = 15 then
        .ok (jsGet overtimeOrder15 ((startIndex + steps).tmod 4))
      else
        .ok (jsGet overtimeOrder21 ((startIndex + steps).tmod 4))
    else
      let steps := pointIndex.tmod 8
      .ok (jsGet receivingOrder ((startIndex + steps).tmod 8))

/-- `getPlayerTeam`: players a,b belong to team a; c,d to team b. -/
def getPlayerTeam (p : String) : Option String :=
  if p = "a" ∨ p = "b" then some "a"
  else if p = "c" ∨ p = "d" then some "b"
  else none

/-- `getPlayerTeam` lifted to a possibly-undefined player (the JS
function falls through all comparisons on `undefined` and returns
`null`). -/
def optPlayerTeam (p : Option String) : Option String :=
  match p with
  | some s => getPlayerTeam s
  | none => none

/-- The 8 valid starting configurations (startingServer,
startingReceiver). -/
def validConfigs : List (Option String × Option String) :=
  [(some "a", some "c"), (some "a", some "d"),
   (some "b", some "c"), (some "b", some "d"),
   (some "c", some "a"), (some "c", some "b"),
   (some "d", some "a"), (some "d", some "b")]

/-- The claimed invariant at one point: both lookups return a player
and the server is on team a exactly when the receiver is on team b. -/
def serverReceiverOpposite (sres rres : Except Unit (Option String)) : Bool :=
  match sres, rres with
  | .ok (some s), .ok (some r) =>
      ((s == "a") || (s == "b")) == ((r == "c") || (r == "d"))
  | _, _ => false

/-! ### Serve info (`getServeInfo`) -/

/-- The record returned by `getServeInfo`. -/
structure ServeInfo where
  team : String
  serveNumber : Int
  isOvertime : Bool
deriving DecidableEq

/-- `getStartingTeam`: the team of the starting server; `null` when the
starting-server value is falsy. -/
def getStartingTeam (sv : Option String) : Option String :=
  match sv with
  | some s =>
      if s = "" then none
      else some (if s = "a" ∨ s = "b" then "a" else "b")
  | none => none

/-- `getServeInfo`, as a function of the starting team, the total
point count of the active set and the overtime flag.  Overtime serves
alternate by point parity with serve number 1; normal play has a single
first serve and then double-serve turns. -/
def getServeInfoCore (startingTeam : Option String) (totalPoints : Int)
    (isOvertime : Bool) : Option ServeInfo :=
  match startingTeam with
  | none => none
  | some t =>
    if t = "" then none
    else if isOvertime then
      some { team := if totalPoints.tmod 2 = 0 then t
                     else (if t = "a" then "b" else "a"),
             serveNumber := 1, isOvertime := true }
    else if totalPoints = 0 then
      some { team := t, serveNumber := 1, isOvertime := false }
    else
      let servesAfterFirst := totalPoints - 1
      let serveGroup := servesAfterFirst.fdiv 2
      let isStartingTeamServe := serveGroup.tmod 2 = 0
      some { team := if isStartingTeamServe then (if t = "a" then "b" else "a")
                     else t,
             serveNumber := servesAfterFirst.tmod 2 + 1, isOvertime := false }

/-- The team-refinement relation claimed between `getServeInfo` and
`getServingPlayerAtPoint`: both must produce a result and the serving
player's team must equal the serve-info team. -/
def serveInfoTeamMatchesServer (si : Option ServeInfo)
    (sres : Except Unit (Option String)) : Bool :=
  match si, sres with
  | some i, .ok (some s) => getPlayerTeam s == some i.team
  | _, _ => false

/-! ### Scoreboard state and the state-dependent queries -/

/-- The state the non-pure queries read: the event log, the current
displayed scores, the per-set starting configuration and the game
settings. -/
structure ScoreState where
  event_history : List Event
  score : Int → String → Int
  startingServer : Int → Option String
  startingReceiver : Int → Option String
  win_points : Int
  min_win_margin : Int
  hardcap : Int

/-- `getScoreHistory` against the state's event log. -/
def ScoreState.getScoreHistory (st : ScoreState) (set : Int) : List Event :=
  getScoreHistoryL st.event_history set

/-- `scoreHistoryToTeamPoints`: running last-known score of a team over
a score-event list; `Number(event.score)` of an absent score is `NaN`,
carried as `none`. -/
def scoreHistoryToTeamPoints (hist : List Event) (team : String) :
    List (Option Int) :=
  (hist.foldl (fun (acc : List (Option Int) × Option Int) ev =>
      if ev.type == "score" && teamTruthy ev.team then
        let last := if jsToLower (ev.team.getD "") == jsToLower team
                    then ev.score else acc.2
        (acc.1 ++ [last], last)
      else acc) ([], some 0)).1

/-- `getScoreAtPointIndex`: the team's score once point `pointIndex`
had been played, read from the reconstructed history; past the end the
current score is returned, and `teamPointsList[pointIndex] || 0` maps
an out-of-range or `NaN` read to 0. -/
def ScoreState.getScoreAtPointIndex (st : ScoreState) (set : Int)
    (team : String) (pointIndex : Int) : Int :=
  let teamPointsList := scoreHistoryToTeamPoints (st.getScoreHistory set) team
  if (teamPointsList.length : Int) ≤ pointIndex then st.score set team
  else if pointIndex < 0 then 0
  else jsNumberOr0 ((teamPointsList.get? pointIndex.toNat).getD none)

/-- `isInOvertime`: at the current scores (`pointIndex = none`) or at a
historical point index. -/
def ScoreState.isInOvertime (st : ScoreState) (set : Int)
    (pointIndex : Option Int) : Bool :=
  let scoreA := match pointIndex with
    | none => st.score set "a"
    | some i => st.getScoreAtPointIndex set "a" i
  let scoreB := match pointIndex with
    | none => st.score set "b"
    | some i => st.getScoreAtPointIndex set "b" i
  isOvertimeCore scoreA scoreB st.win_points st.min_win_margin st.hardcap

/-- `getServingPlayerAtPoint` as the method reads its inputs: starting
configuration of the set, settings and the overtime flag at this point
index. -/
def ScoreState.getServingPlayerAtPoint (st : ScoreState) (pointIndex : Int)
    (set : Int) : Except Unit (Option String) :=
  getServingPlayerAtPointCore (st.startingServer set) (st.startingReceiver set)
    st.win_points (st.isInOvertime set (some pointIndex)) pointIndex

/-- `getReceivingPlayerAtPoint` as the method reads its inputs. -/
def ScoreState.getReceivingPlayerAtPoint (st : ScoreState) (pointIndex : Int)
    (set : Int) : Except Unit (Option String) :=
  getReceivingPlayerAtPointCore (st.startingServer set) (st.startingReceiver set)
    st.win_points (st.isInOvertime set (some pointIndex)) pointIndex

/-! ### Statistics engine (`calculateStatistics`, single-set scope) -/

/-- Per-player counters of `calculateStatistics`. -/
structure PlayerStats where
  sideouts : Nat := 0
  sideoutOpportunities : Nat := 0
  breaks : Nat := 0
  breakOpportunities : Nat := 0
  sideoutPercentage : Nat := 0
  breakPercentage : Nat := 0
deriving DecidableEq

/-- Per-team counters of `calculateStatistics`. -/
structure TeamStats where
  breaks : Nat := 0
  breakOpportunities : Nat := 0
  breakPercentage : Nat := 0
deriving DecidableEq

/-- The statistics record: two teams and the four players a,b,c,d. -/
structure Stats where
  teamA : TeamStats := {}
  teamB : TeamStats := {}
  pa : PlayerStats := {}
  pb : PlayerStats := {}
  pc : PlayerStats := {}
  pd : PlayerStats := {}
deriving DecidableEq

/-- `Math.round((count / opportunities) * 100)` with the zero guard;
for nonnegative values JS rounds half away from zero, i.e.
`⌊(100*count)/opp + 1/2⌋`. -/
def jsRoundPct (count opp : Nat) : Nat :=
  if opp = 0 then 0 else (200 * count + opp) / (2 * opp)

/-- Update the stats entry `stats.players[key]`; an invalid or absent
key is a property access on `undefined` and throws. -/
def playerKeyUpdate (s : Stats) (key : Option String)
    (f : PlayerStats → PlayerStats) : Except Unit Stats :=
  match key with
  | none => .error ()
  | some k =>
      if k = "a" then .ok { s with pa := f s.pa }
      else if k = "b" then .ok { s with pb := f s.pb }
      else if k = "c" then .ok { s with pc := f s.pc }
      else if k = "d" then .ok { s with pd := f s.pd }
      else .error ()

/-- Update `stats.teamA`/`stats.teamB` keyed by a team string; any
other key is an access on `undefined` and throws. -/
def teamKeyUpdate (s : Stats) (key : String)
    (f : TeamStats → TeamStats) : Except Unit Stats :=
  if key = "a" then .ok { s with teamA := f s.teamA }
  else if key = "b" then .ok { s with teamB := f s.teamB }
  else .error ()

/-- One iteration of the statistics loop for the event at local index
`idx`.  An event with a falsy team or set field is skipped; the serve
lookups run first (and may throw); `servingTeam.toUpperCase()` on a
`null` serving team throws. -/
def processScoreEvent (st : ScoreState) (s : Stats) (idx : Nat) (ev : Event) :
    Except Unit Stats :=
  match ev.team with
  | none => .ok s
  | some tm =>
    if tm = "" then .ok s else
    match ev.set with
    | .absent => .ok s
    | .squad => .error ()
    | .num n =>
      if n = 0 then .ok s else
      match st.getServingPlayerAtPoint (idx : Int) n,
            st.getReceivingPlayerAtPoint (idx : Int) n with
      | .error _, _ => .error ()
      | .ok _, .error _ => .error ()
      | .ok servingPlayer, .ok receivingPlayer =>
        match optPlayerTeam servingPlayer with
        | none => .error ()
        | some stm =>
          match teamKeyUpdate s stm
              (fun t => { t with breakOpportunities := t.breakOpportunities + 1 }) with
          | .error e => .error e
          | .ok s1 =>
            match playerKeyUpdate s1 servingPlayer
                (fun p => { p with breakOpportunities := p.breakOpportunities + 1 }) with
            | .error e => .error e
            | .ok s2 =>
              match playerKeyUpdate s2 receivingPlayer
                  (fun p => { p with sideoutOpportunities := p.sideoutOpportunities + 1 }) with
              | .error e => .error e
              | .ok s3 =>
                if jsToLower tm == stm then
                  match teamKeyUpdate s3 (jsToLower tm)
                      (fun t => { t with breaks := t.breaks + 1 }) with
                  | .error e => .error e
                  | .ok s4 =>
                      playerKeyUpdate s4 servingPlayer
                        (fun p => { p with breaks := p.breaks + 1 })
                else
                  playerKeyUpdate s3 receivingPlayer
                    (fun p => { p with sideouts := p.sideouts + 1 })

/-- The statistics loop over the selected events, with their local
indices. -/
def processScoreEvents (st : ScoreState) : Nat → List Event → Stats →
    Except Unit Stats
  | _, [], s => .ok s
  | i, ev :: rest, s =>
      match processScoreEvent st s i ev with
      | .error e => .error e
      | .ok s' => processScoreEvents st (i + 1) rest s'

/-- The percentage pass at the end of `calculateStatistics`. -/
def applyPercentages (s : Stats) : Stats :=
  { s with
    teamA := { s.teamA with breakPercentage := jsRoundPct s.teamA.breaks s.teamA.breakOpportunities },
    teamB := { s.teamB with breakPercentage := jsRoundPct s.teamB.breaks s.teamB.breakOpportunities },
    pa := { s.pa with
            sideoutPercentage := jsRoundPct s.pa.sideouts s.pa.sideoutOpportunities,
            breakPercentage := jsRoundPct s.pa.breaks s.pa.breakOpportunities },
    pb := { s.pb with
            sideoutPercentage := jsRoundPct s.pb.sideouts s.pb.sideoutOpportunities,
            breakPercentage := jsRoundPct s.pb.breaks s.pb.breakOpportunities },
    pc := { s.pc with
            sideoutPercentage := jsRoundPct s.pc.sideouts s.pc.sideoutOpportunities,
            breakPercentage := jsRoundPct s.pc.breaks s.pc.breakOpportunities },
    pd := { s.pd with
            sideoutPercentage := jsRoundPct s.pd.sideouts s.pd.sideoutOpportunities,
            breakPercentage := jsRoundPct s.pd.breaks s.pd.breakOpportunities } }

/-- `calculateStatistics('set', set)`: process the set's score history
(local index = array index) and compute percentages.  The whole-match
scope of the JS function is not needed by any claim and is elided. -/
def calculateStatisticsSet (st : ScoreState) (set : Int) :
    Except Unit Stats :=
  match processScoreEvents st 0 (st.getScoreHistory set) {} with
  | .error e => .error e
  | .ok s => .ok (applyPercentages s)

/-- Sum of sideout opportunities over the four players. -/
def sumSideoutOpportunities (s : Stats) : Nat :=
  s.pa.sideoutOpportunities + s.pb.sideoutOpportunities +
    s.pc.sideoutOpportunities + s.pd.sideoutOpportunities

/-! ### Concrete fixtures used by witnesses and counterexamples -/

/-- A log holding a single score event whose `team` field is absent:
`getScoreHistory`'s own filter drops it. -/
def teamlessScoreLog : List Event :=
  [{ type := "score", team := none, score := some 5, set := .num 1 }]

/-- A state with one ordinary point played in set 1 under the
configuration (a, c). -/
def oneEventState : ScoreState :=
  { event_history := [{ type := "score", team := some "a", score := some 1, set := .num 1 }],
    score := fun _ _ => 0,
    startingServer := fun _ => some "a",
    startingReceiver := fun _ => some "c",
    win_points := 21, min_win_margin := 2, hardcap := 25 }

/-- The statistics of `oneEventState`: player a served point 0 and his
team scored it (a break); player c was the receiver. -/
def oneEventStats : Stats :=
  { teamA := { breaks := 1, breakOpportunities := 1, breakPercentage := 100 },
    pa := { breaks := 1, breakOpportunities := 1, breakPercentage := 100 },
    pc := { sideoutOpportunities := 1 } }

/-- A state whose log carries a 100:0 score: from point index 1 on the
reconstructed score is past the hardcap, so the statistics loop asks
the serving lookup for an overtime point below `win_points*2 - 2`. -/
def earlyOvertimeState : ScoreState :=
  { event_history := [{ type := "score", team := some "a", score := some 100, set := .num 1 },
                      { type := "score", team := some "a", score := some 100, set := .num 1 }],
    score := fun _ _ => 0,
    startingServer := fun _ => some "a",
    startingReceiver := fun _ => some "c",
    win_points := 21, min_win_margin := 2, hardcap := 25 }

/-- A one-event log for exercising the score-decrease edit. -/
def editWitnessLog : List Event :=
  [{ type := "score", team := some "a", score := some 5, set := .num 1 }]

/-!
## Theorems

One theorem per claim (plus counterexamples and witnesses), in claim
order, with shared helper lemmas preceding them.
-/

/-- C2: `setWinner` picks the higher-scoring team as soon as either
score reaches the hardcap, with no margin condition; below the hardcap
it picks the higher-scoring team exactly when the winning score is
reached with the required margin; otherwise it returns null. -/
theorem setWinner_cases (A B wp margin hc : Int) :
    ((hc ≤ A ∨ hc ≤ B) →
        (B < A → setWinnerCore A B wp margin hc = some "a") ∧
        (A < B → setWinnerCore A B wp margin hc = some "b")) ∧
    (¬(hc ≤ A ∨ hc ≤ B) →
        (((wp ≤ A ∨ wp ≤ B) ∧ margin ≤ |A - B|) →
            (B < A → setWinnerCore A B wp margin hc = some "a") ∧
            (A < B → setWinnerCore A B wp margin hc = some "b")) ∧
        (¬((wp ≤ A ∨ wp ≤ B) ∧ margin ≤ |A - B|) →
            setWinnerCore A B wp margin hc = none)) := by
  unfold setWinnerCore
  split_ifs with h1 h2 h3 <;>
    refine ⟨fun hh => ⟨fun hab => ?_, fun hba => ?_⟩, fun hh => ⟨fun hm => ⟨fun hab => ?_, fun hba => ?_⟩, fun hm => ?_⟩⟩ <;>
    simp_all <;> omega

/-- C2 witness: at 25:23 with settings (21, 2, 25) the hardcap branch
declares team a the winner. -/
theorem setWinner_cases_witness : setWinnerCore 25 23 21 2 25 = some "a" :=
  ((setWinner_cases 25 23 21 2 25).1 (Or.inl (by norm_num))).1 (by norm_num)

/-- C3 counterexample: at 21:19 with settings (21, 2, 25) the code
returns team a (winning score reached with the 2-point margin), not
null as the claim states. -/
theorem setWinner_21_19_is_a :
    setWinnerCore 21 19 21 2 25 = some "a" ∧
    setWinnerCore 21 19 21 2 25 ≠ none := by decide

/-- C3 amended: with settings (21, 2, 25), 21:19 gives team a, 23:21
gives team a, and 25:23 gives team a via the hardcap branch. -/
theorem setWinner_examples :
    setWinnerCore 21 19 21 2 25 = some "a" ∧
    setWinnerCore 23 21 21 2 25 = some "a" ∧
    setWinnerCore 25 23 21 2 25 = some "a" := by decide

/-- C10: with both scores equal and at or above the hardcap,
`setWinner` resolves the tie to team b (the `scoreA > scoreB ? 'a' :
'b'` ternary), never null. -/
theorem setWinner_tie_at_hardcap_returns_b (s wp margin hc : Int)
    (h : hc ≤ s) : setWinnerCore s s wp margin hc = some "b" := by
  unfold setWinnerCore
  rw [if_pos (Or.inl h)]
  simp

/-- C10 witness: a 25:25 tie at hardcap 25 returns team b. -/
theorem setWinner_tie_at_hardcap_returns_b_witness :
    setWinnerCore 25 25 21 2 25 = some "b" :=
  setWinner_tie_at_hardcap_returns_b 25 21 2 25 (by norm_num)

/-- C6: an append followed by the truncation pass keeps exactly the
most recent 200 entries, dropping the oldest first, so the published
log never exceeds 200 entries. -/
theorem appendEvent_truncates_to_200 (h : List Event) (e : Event) :
    appendEvent h e = (h ++ [e]).drop (h.length + 1 - 200) ∧
    (appendEvent h e).length ≤ 200 := by
  unfold appendEvent handleEventHistory
  have hl : (h ++ [e]).length = h.length + 1 := by simp
  split_ifs with hc
  · rw [hl]
    refine ⟨rfl, ?_⟩
    rw [List.length_drop, hl]
    omega
  · rw [hl] at hc
    have h0 : h.length + 1 - 200 = 0 := by omega
    rw [h0, List.drop_zero]
    refine ⟨rfl, ?_⟩
    rw [hl]
    omega

/-- C9: for a (server, receiver) pair outside the 8 valid
configurations the serve-order table stays undefined and the very next
step, `serveOrder.indexOf(...)`, throws a TypeError — modelled as
`Except.error` — instead of returning null as the function's own doc
comment and the specification demand (even at point index 0). -/
theorem rotation_invalid_config_throws :
    getServingPlayerAtPointCore (some "a") (some "b") 21 false 0 = .error () ∧
    getReceivingPlayerAtPointCore (some "a") (some "b") 21 false 0 = .error () ∧
    getServingPlayerAtPointCore none none 21 false 0 = .error () ∧
    getReceivingPlayerAtPointCore none none 21 false 0 = .error () := by
  decide

/-- C1 counterexample: configuration (a, c), win_points 21, overtime
status true at point index 2 (reachable when a hardcap-level score
stands in the log): the serving lookup computes a negative array index
and yields undefined, while the receiving lookup yields player d — the
pair is not a server/receiver pair on opposite teams. -/
theorem rotation_opposite_fails_in_early_overtime :
    serverReceiverOpposite
      (getServingPlayerAtPointCore (some "a") (some "c") 21 true 2)
      (getReceivingPlayerAtPointCore (some "a") (some "c") 21 true 2) = false ∧
    getServingPlayerAtPointCore (some "a") (some "c") 21 true 2 = .ok none ∧
    getReceivingPlayerAtPointCore (some "a") (some "c") 21 true 2 =
      .ok (some "d") := by
  decide

/-- C5 counterexample: a log holding one score event of set 1 with an
absent team field.  The specification's filter (type and set only)
keeps the event, but `getScoreHistory` also demands a truthy team and
a present score and returns the empty list. -/
theorem getScoreHistory_claim_filter_fails :
    getScoreHistoryL teamlessScoreLog 1 ≠
      (afterLastReset teamlessScoreLog).filter (scoreHistClaimPred 1) ∧
    getScoreHistoryL teamlessScoreLog 1 = [] := by decide

/-- C8 counterexample: with configuration (a, c), win_points 21 and
overtime at total point count 2 (hardcap-triggered overtime),
`getServeInfo` reports serving team a but `getServingPlayerAtPoint`
yields undefined, so the serve-info team matches no serving player. -/
theorem serveInfo_mismatch_in_early_overtime :
    serveInfoTeamMatchesServer
      (getServeInfoCore (getStartingTeam (some "a")) 2 true)
      (getServingPlayerAtPointCore (some "a") (some "c") 21 true 2) = false ∧
    getServeInfoCore (getStartingTeam (some "a")) 2 true =
      some { team := "a", serveNumber := 1, isOvertime := true } := by
  decide

/-- In normal play the serving lookup never reads `win_points`. -/
theorem servingCore_normal_wp_irrel (sv sr : Option String) (wp p : Int) :
    getServingPlayerAtPointCore sv sr wp false p =
    getServingPlayerAtPointCore sv sr 0 false p := by
  cases h : serveOrderFor sv sr <;>
    simp [getServingPlayerAtPointCore, h]

/-- In normal play the receiving lookup never reads `win_points`. -/
theorem receivingCore_normal_wp_irrel (sv sr : Option String) (wp p : Int) :
    getReceivingPlayerAtPointCore sv sr wp false p =
    getReceivingPlayerAtPointCore sv sr 0 false p := by
  cases h : receiveOrdersFor sv sr <;>
    simp [getReceivingPlayerAtPointCore, h]

/-- Exhaustive check of the opposite-team invariant in normal play. -/
theorem normal_opposite_lt100 :
    ∀ c ∈ validConfigs, ∀ n : Nat, n < 100 →
      serverReceiverOpposite
        (getServingPlayerAtPointCore c.1 c.2 0 false (n : Int))
        (getReceivingPlayerAtPointCore c.1 c.2 0 false (n : Int)) = true := by
  decide

/-- Exhaustive check of the invariant in overtime for win_points 15
from its overtime threshold 28 on. -/
theorem ot15_opposite_lt100 :
    ∀ c ∈ validConfigs, ∀ n : Nat, n < 100 → 28 ≤ n →
      serverReceiverOpposite
        (getServingPlayerAtPointCore c.1 c.2 15 true (n : Int))
        (getReceivingPlayerAtPointCore c.1 c.2 15 true (n : Int)) = true := by
  decide

/-- Exhaustive check of the invariant in overtime for win_points 21
from its overtime threshold 40 on. -/
theorem ot21_opposite_lt100 :
    ∀ c ∈ validConfigs, ∀ n : Nat, n < 100 → 40 ≤ n →
      serverReceiverOpposite
        (getServingPlayerAtPointCore c.1 c.2 21 true (n : Int))
        (getReceivingPlayerAtPointCore c.1 c.2 21 true (n : Int)) = true := by
  decide

/-- C1 (amended): for the 8 valid configurations and every point index
below 100, the serving and receiving lookups return players on
opposite teams — in normal play for every win_points setting, and in
overtime provided win_points is 15 or 21 and the point index is at
least `win_points*2 - 2` (the point count at which overtime can
actually begin). -/
theorem rotation_opposite_teams :
    ∀ sv sr, (sv, sr) ∈ validConfigs → ∀ (wp : Int) (ot : Bool) (n : Nat),
      n < 100 →
      (ot = false ∨ ((wp = 15 ∨ wp = 21) ∧ 2 * wp - 2 ≤ (n : Int))) →
      serverReceiverOpposite
        (getServingPlayerAtPointCore sv sr wp ot (n : Int))
        (getReceivingPlayerAtPointCore sv sr wp ot (n : Int)) = true := by
  intro sv sr hmem wp ot n hn hreg
  cases ot with
  | false =>
      rw [servingCore_normal_wp_irrel, receivingCore_normal_wp_irrel]
      exact normal_opposite_lt100 (sv, sr) hmem n hn
  | true =>
      rcases hreg with h | ⟨hwp, hge⟩
      · exact absurd h (by simp)
      · rcases hwp with rfl | rfl
        · exact ot15_opposite_lt100 (sv, sr) hmem n hn (by omega)
        · exact ot21_opposite_lt100 (sv, sr) hmem n hn (by omega)

/-- C1 witness: configuration (a, c) in normal play at point 5 —
server c, receiver a, opposite teams. -/
theorem rotation_opposite_teams_witness :
    serverReceiverOpposite
      (getServingPlayerAtPointCore (some "a") (some "c") 21 false ((5 : Nat) : Int))
      (getReceivingPlayerAtPointCore (some "a") (some "c") 21 false ((5 : Nat) : Int)) = true :=
  rotation_opposite_teams (some "a") (some "c") (by decide) 21 false 5
    (by decide) (Or.inl rfl)

/-- C4: a score decrease (non-squad) removes exactly the most recent
score event of that team and set whose score exceeds the new score —
the log splits as `l1 ++ e :: l2` with `e` matching, nothing after `e`
matching, and the result being `l1 ++ l2` — or, when no event matches,
the log is returned unchanged.  In particular at most one event is
removed however large the decrease. -/
theorem onScoreEdit_decrease_removes_most_recent
    (h : List Event) (team : String) (set : Int) (newScore : Int)
    (hlt : newScore < oldScoreLookup h team set false) :
    (∃ l1 e l2, h = l1 ++ e :: l2 ∧
        removeMatch team newScore set e = true ∧
        (∀ x ∈ l2, removeMatch team newScore set x = false) ∧
        onScoreEdit h team set newScore false = l1 ++ l2) ∨
    ((∀ x ∈ h, removeMatch team newScore set x = false) ∧
        onScoreEdit h team set newScore false = h) := by
  have hedit : onScoreEdit h team set newScore false =
      removeEventHistoryEvents team newScore set h := by
    simp [onScoreEdit, hlt]
  rw [hedit]
  unfold removeEventHistoryEvents
  cases hidx : h.reverse.findIdx? (removeMatch team newScore set) with
  | none =>
      right
      rw [List.findIdx?_eq_none_iff] at hidx
      exact ⟨fun x hx => hidx x (List.mem_reverse.mpr hx), rfl⟩
  | some i =>
      left
      rw [List.findIdx?_eq_some_iff_getElem] at hidx
      obtain ⟨hi, hp, hprev⟩ := hidx
      rw [List.length_reverse] at hi
      have hkl : h.length - 1 - i < h.length := by omega
      refine ⟨h.take (h.length - 1 - i), h[h.length - 1 - i],
              h.drop (h.length - 1 - i + 1), ?_, ?_, ?_, ?_⟩
      · rw [List.getElem_cons_drop, List.take_append_drop]
      · rw [List.getElem_reverse] at hp
        exact hp
      · intro x hx
        rw [List.mem_iff_getElem] at hx
        obtain ⟨j, hj, rfl⟩ := hx
        rw [List.length_drop] at hj
        rw [List.getElem_drop]
        have hj2 : h.length - 1 - (h.length - 1 - i + 1 + j) < i := by omega
        have hnp := hprev (h.length - 1 - (h.length - 1 - i + 1 + j)) hj2
        rw [List.getElem_reverse] at hnp
        have harith : h.length - 1 - (h.length - 1 -
            (h.length - 1 - i + 1 + j)) = h.length - 1 - i + 1 + j := by
          omega
        simp only [harith] at hnp
        simpa using hnp
      · show h.eraseIdx (h.length - 1 - i) =
          List.take (h.length - 1 - i) h ++ List.drop (h.length - 1 - i + 1) h
        rw [List.eraseIdx_eq_take_drop_succ]

/-- C4 witness: dropping the score of team a in set 1 from 5 to 3 on a
one-event log removes that event. -/
theorem onScoreEdit_decrease_removes_most_recent_witness :
    (∃ l1 e l2, editWitnessLog = l1 ++ e :: l2 ∧
        removeMatch "a" 3 1 e = true ∧
        (∀ x ∈ l2, removeMatch "a" 3 1 x = false) ∧
        onScoreEdit editWitnessLog "a" 1 3 false = l1 ++ l2) ∨
    ((∀ x ∈ editWitnessLog, removeMatch "a" 3 1 x = false) ∧
        onScoreEdit editWitnessLog "a" 1 3 false = editWitnessLog) :=
  onScoreEdit_decrease_removes_most_recent editWitnessLog "a" 1 3 (by decide)

/-- A list's `takeWhile` is its prefix up to the first failure of the
predicate. -/
theorem takeWhile_eq_take_of_first_failure {α : Type} (q : α → Bool) :
    ∀ (l : List α) (i : Nat) (hi : i < l.length),
      q (l.get ⟨i, hi⟩) = false →
      (∀ j (hj : j < i), q (l.get ⟨j, Nat.lt_trans hj hi⟩) = true) →
      l.takeWhile q = l.take i := by
  intro l
  induction l with
  | nil => intro i hi _ _; exact absurd hi (by simp)
  | cons a l ih =>
      intro i hi hfail hpre
      cases i with
      | zero =>
          simp only [List.get] at hfail
          simp [List.takeWhile_cons, hfail]
      | succ m =>
          have ha : q a = true := hpre 0 (Nat.succ_pos m)
          have hm : m < l.length := by simpa using hi
          rw [List.takeWhile_cons, if_pos ha, List.take_succ_cons]
          congr 1
          refine ih m hm hfail ?_
          intro j hj
          exact hpre (j + 1) (Nat.succ_lt_succ hj)

/-- The implementation's reset cut (reverse scan for the last reset,
then index arithmetic and `drop`) equals the longest reset-free suffix
of the log. -/
theorem drop_lastReset_eq_afterLastReset (h : List Event) :
    h.drop (getLastResetIndex h + 1).toNat = afterLastReset h := by
  unfold getLastResetIndex afterLastReset
  cases hidx : h.reverse.findIdx? (fun e => e.type == "reset") with
  | none =>
      rw [List.findIdx?_eq_none_iff] at hidx
      have htw : h.reverse.takeWhile (fun e => !(e.type == "reset")) =
          h.reverse := by
        rw [List.takeWhile_eq_self_iff]
        intro x hx
        simp [hidx x hx]
      show h.drop ((-1 : Int) + 1).toNat = _
      rw [htw, List.reverse_reverse]
      norm_num
  | some i =>
      rw [List.findIdx?_eq_some_iff_getElem] at hidx
      obtain ⟨hi, hp, hprev⟩ := hidx
      have htw : h.reverse.takeWhile (fun e => !(e.type == "reset")) =
          h.reverse.take i := by
        refine takeWhile_eq_take_of_first_failure _ h.reverse i hi ?_ ?_
        · simpa using hp
        · intro j hj
          simpa using hprev j hj
      show h.drop (((h.length - 1 - i : Nat) : Int) + 1).toNat = _
      rw [htw, List.reverse_take, List.reverse_reverse, List.length_reverse]
      have hi' : i < h.length := by simpa using hi
      have harith : (((h.length - 1 - i : Nat) : Int) + 1).toNat =
          h.length - i := by omega
      rw [harith]

/-- C5 (amended): `getScoreHistory(set)` returns exactly the
subsequence of the log strictly after the most recent reset (the whole
log when none exists), restricted to events of type score whose set
matches and that carry a non-empty team string and a present score
field, in original order; every returned event is a score event of the
requested set. -/
theorem getScoreHistory_after_last_reset (h : List Event) (set : Int) :
    getScoreHistoryL h set = (afterLastReset h).filter (scoreHistPred set) ∧
    ∀ e ∈ getScoreHistoryL h set, e.type = "score" ∧ e.set = .num set := by
  constructor
  · unfold getScoreHistoryL
    rw [drop_lastReset_eq_afterLastReset]
  · intro e he
    unfold getScoreHistoryL at he
    rw [List.mem_filter] at he
    have hpred := he.2
    unfold scoreHistPred at hpred
    simp only [Bool.and_eq_true, beq_iff_eq] at hpred
    refine ⟨hpred.1.1.1, ?_⟩
    have := hpred.1.1.2
    cases hset : e.set with
    | num m =>
        rw [hset] at this
        simp only [setFieldEq, beq_iff_eq] at this
        rw [this]
    | squad => rw [hset] at this; simp [setFieldEq] at this
    | absent => rw [hset] at this; simp [setFieldEq] at this

/-- C5 witness: on the one-event log, the returned event of set 1 is a
score event of set 1. -/
theorem getScoreHistory_after_last_reset_witness :
    ({ type := "score", team := some "a", score := some 5,
       set := .num 1 } : Event).type = "score" ∧
    ({ type := "score", team := some "a", score := some 5,
       set := .num 1 } : Event).set = .num 1 :=
  (getScoreHistory_after_last_reset editWitnessLog 1).2
    { type := "score", team := some "a", score := some 5, set := .num 1 }
    (by decide)

/-- A team-stat update never touches the player records. -/
theorem teamKeyUpdate_sumSO {s s' : Stats} {k : String}
    {f : TeamStats → TeamStats} (h : teamKeyUpdate s k f = .ok s') :
    sumSideoutOpportunities s' = sumSideoutOpportunities s := by
  unfold teamKeyUpdate at h
  split_ifs at h <;> simp only [Except.ok.injEq] at h <;> subst h <;> rfl

/-- A player-stat update changes the sideout-opportunity sum by
exactly what the field function adds to that one player. -/
theorem playerKeyUpdate_sumSO {s s' : Stats} {k : Option String}
    {f : PlayerStats → PlayerStats} (d : Nat)
    (h : playerKeyUpdate s k f = .ok s')
    (hf : ∀ p, (f p).sideoutOpportunities = p.sideoutOpportunities + d) :
    sumSideoutOpportunities s' = sumSideoutOpportunities s + d := by
  unfold playerKeyUpdate at h
  split at h
  · exact absurd h (by simp)
  · split_ifs at h <;> simp only [Except.ok.injEq] at h <;> subst h <;>
      simp only [sumSideoutOpportunities, hf] <;> omega

/-- Each processed score event with a truthy team and a nonzero
numeric set adds exactly one sideout opportunity (the receiver's),
whenever the iteration completes without throwing. -/
theorem processScoreEvent_sumSO (st : ScoreState) (s s' : Stats) (idx : Nat)
    (ev : Event) (tm : String) (n : Int) (hteam : ev.team = some tm)
    (htm : tm ≠ "") (hn : ev.set = .num n) (hn0 : n ≠ 0)
    (h : processScoreEvent st s idx ev = .ok s') :
    sumSideoutOpportunities s' = sumSideoutOpportunities s + 1 := by
  unfold processScoreEvent at h
  rw [hteam, hn] at h
  simp only [if_neg htm, if_neg hn0] at h
  cases hsv : st.getServingPlayerAtPoint (idx : Int) n with
  | error e => rw [hsv] at h; simp at h
  | ok servingPlayer =>
    rw [hsv] at h
    cases hrv : st.getReceivingPlayerAtPoint (idx : Int) n with
    | error e => rw [hrv] at h; simp at h
    | ok receivingPlayer =>
      rw [hrv] at h
      simp only [] at h
      cases hst : optPlayerTeam servingPlayer with
      | none => rw [hst] at h; simp at h
      | some stm =>
        rw [hst] at h
        simp only [] at h
        cases h1 : teamKeyUpdate s stm
            (fun t => { t with breakOpportunities := t.breakOpportunities + 1 }) with
        | error e => rw [h1] at h; simp at h
        | ok s1 =>
          rw [h1] at h
          simp only [] at h
          cases h2 : playerKeyUpdate s1 servingPlayer
              (fun p => { p with breakOpportunities := p.breakOpportunities + 1 }) with
          | error e => rw [h2] at h; simp at h
          | ok s2 =>
            rw [h2] at h
            simp only [] at h
            cases h3 : playerKeyUpdate s2 receivingPlayer
                (fun p => { p with sideoutOpportunities := p.sideoutOpportunities + 1 }) with
            | error e => rw [h3] at h; simp at h
            | ok s3 =>
              rw [h3] at h
              simp only [] at h
              have e1 := teamKeyUpdate_sumSO h1
              have e2 := playerKeyUpdate_sumSO 0 h2 (fun p => rfl)
              have e3 := playerKeyUpdate_sumSO 1 h3 (fun p => rfl)
              split_ifs at h with hbrk
              · cases h4 : teamKeyUpdate s3 (jsToLower tm)
                    (fun t => { t with breaks := t.breaks + 1 }) with
                | error e => rw [h4] at h; simp at h
                | ok s4 =>
                  rw [h4] at h
                  simp only [] at h
                  have e4 := teamKeyUpdate_sumSO h4
                  have e5 := playerKeyUpdate_sumSO 0 h (fun p => rfl)
                  omega
              · have e5 := playerKeyUpdate_sumSO 0 h (fun p => rfl)
                omega

/-- The statistics loop adds one sideout opportunity per event when
every event carries a truthy team and the nonzero set number. -/
theorem processScoreEvents_sumSO (st : ScoreState) (set : Int)
    (hn0 : set ≠ 0) :
    ∀ (l : List Event) (i : Nat) (s s' : Stats),
      (∀ e ∈ l, teamTruthy e.team = true ∧ e.set = .num set) →
      processScoreEvents st i l s = .ok s' →
      sumSideoutOpportunities s' = sumSideoutOpportunities s + l.length := by
  intro l
  induction l with
  | nil =>
      intro i s s' _ h
      unfold processScoreEvents at h
      simp only [Except.ok.injEq] at h
      subst h
      simp
  | cons ev rest ih =>
      intro i s s' hall h
      unfold processScoreEvents at h
      cases hpe : processScoreEvent st s i ev with
      | error e => rw [hpe] at h; simp at h
      | ok s1 =>
        rw [hpe] at h
        have hmem := hall ev (List.mem_cons_self ev rest)
        obtain ⟨htt, hset⟩ := hmem
        obtain ⟨tm, htm, htm0⟩ : ∃ tm, ev.team = some tm ∧ tm ≠ "" := by
          cases hv : ev.team with
          | none => rw [hv] at htt; simp [teamTruthy] at htt
          | some tm =>
              rw [hv] at htt
              simp only [teamTruthy, Bool.not_eq_eq_eq_not, Bool.not_false,
                beq_iff_eq] at htt
              exact ⟨tm, rfl, by simpa using htt⟩
        have hone := processScoreEvent_sumSO st s s1 i ev tm set htm htm0
          hset hn0 hpe
        have hrest := ih (i + 1) s1 s'
          (fun e he => hall e (List.mem_cons_of_mem ev he)) h
        simp only [List.length_cons]
        omega

/-- The percentage pass leaves every counter unchanged. -/
theorem applyPercentages_sumSO (s : Stats) :
    sumSideoutOpportunities (applyPercentages s) =
      sumSideoutOpportunities s := rfl

/-- Every event of a score history has a truthy team and the
requested set number. -/
theorem mem_getScoreHistoryL (h : List Event) (set : Int) :
    ∀ e ∈ getScoreHistoryL h set,
      teamTruthy e.team = true ∧ e.set = .num set := by
  intro e he
  unfold getScoreHistoryL at he
  rw [List.mem_filter] at he
  have hpred := he.2
  unfold scoreHistPred at hpred
  simp only [Bool.and_eq_true] at hpred
  refine ⟨hpred.1.2, ?_⟩
  have := hpred.1.1.2
  cases hset : e.set with
  | num m =>
      rw [hset] at this
      simp only [setFieldEq, beq_iff_eq] at this
      rw [this]
  | squad => rw [hset] at this; simp [setFieldEq] at this
  | absent => rw [hset] at this; simp [setFieldEq] at this

/-- C7 (amended): for every state and nonzero set number, whenever the
single-set statistics complete without throwing, the four players'
sideout opportunities sum to exactly the number of score events in the
set's history (each processed point credits exactly one receiver). -/
theorem sideoutOpportunities_sum_eq_history_length (st : ScoreState)
    (set : Int) (hset : set ≠ 0) (s : Stats)
    (h : calculateStatisticsSet st set = .ok s) :
    sumSideoutOpportunities s = (ScoreState.getScoreHistory st set).length := by
  unfold calculateStatisticsSet at h
  cases hp : processScoreEvents st 0 (st.getScoreHistory set) {} with
  | error e => rw [hp] at h; simp at h
  | ok s0 =>
      rw [hp] at h
      simp only [Except.ok.injEq] at h
      subst h
      rw [applyPercentages_sumSO]
      have hsum := processScoreEvents_sumSO st set hset
        (st.getScoreHistory set) 0 {} s0
        (mem_getScoreHistoryL st.event_history set) hp
      have h0 : sumSideoutOpportunities {} = 0 := rfl
      omega

/-- C7 witness: one point played in `oneEventState` — the receiver
(player c) collects the single sideout opportunity and the history
holds one event. -/
theorem sideoutOpportunities_sum_witness :
    sumSideoutOpportunities oneEventStats =
      (ScoreState.getScoreHistory oneEventState 1).length :=
  sideoutOpportunities_sum_eq_history_length oneEventState 1 (by decide)
    oneEventStats (by decide)

/-- `Int.tmod` on natural-number casts is the natural `%`. -/
theorem natCast_tmod (a b : Nat) : (a : Int).tmod (b : Int) = ((a % b : Nat) : Int) := rfl

theorem natCast_tmod2 (a : Nat) : (a : Int).tmod 2 = ((a % 2 : Nat) : Int) := natCast_tmod a 2

theorem natCast_tmod4 (a : Nat) : (a : Int).tmod 4 = ((a % 4 : Nat) : Int) := natCast_tmod a 4

theorem natCast_tmod8 (a : Nat) : (a : Int).tmod 8 = ((a % 8 : Nat) : Int) := natCast_tmod a 8

/-- `Int.fdiv` on natural-number casts is the natural `/`. -/
theorem natCast_fdiv (a b : Nat) : (a : Int).fdiv (b : Int) = ((a / b : Nat) : Int) := by
  cases a with
  | zero => show (0 : Int) = ((0 / b : Nat) : Int); rw [Nat.zero_div]; rfl
  | succ m => rfl

theorem natCast_fdiv2 (a : Nat) : (a : Int).fdiv 2 = ((a / 2 : Nat) : Int) := natCast_fdiv a 2

/-- A JS array read at a nonnegative index is a plain list lookup. -/
theorem jsGet_natCast (l : List String) (k : Nat) : jsGet l (k : Int) = l.get? k := by
  simp [jsGet]

/-- Normal-play `getServeInfo` at a natural point count, with the
phase arithmetic carried out over `Nat`. -/
theorem serveInfoCore_nat (t : String) (ht : t ≠ "") (n : Nat) :
    getServeInfoCore (some t) (n : Int) false =
      some { team := if n = 0 then t
                     else if (n - 1) / 2 % 2 = 0 then (if t = "a" then "b" else "a") else t,
             serveNumber := if n = 0 then 1 else ((n - 1) % 2 : Nat) + 1,
             isOvertime := false } := by
  unfold getServeInfoCore
  simp only []
  rw [if_neg ht]
  rcases Nat.eq_zero_or_pos n with rfl | hpos
  · simp
  · rw [if_neg (by exact_mod_cast hpos.ne' : ¬((n : Int) = 0))]
    have hc : ((n : Int) - 1) = ((n - 1 : Nat) : Int) := by omega
    simp only [Bool.false_eq_true, if_false, hc, natCast_fdiv2, natCast_tmod2,
      Nat.cast_eq_zero, if_neg hpos.ne']

/-- Overtime `getServeInfo` at a natural point count. -/
theorem serveInfoCore_ot_nat (t : String) (ht : t ≠ "") (n : Nat) :
    getServeInfoCore (some t) (n : Int) true =
      some { team := if n % 2 = 0 then t else (if t = "a" then "b" else "a"),
             serveNumber := 1, isOvertime := true } := by
  unfold getServeInfoCore
  simp only []
  rw [if_neg ht]
  simp only [if_true, natCast_tmod2, Nat.cast_eq_zero]

/-- Normal-play serving lookup over a resolved table: the player at
table slot `(n+1) % 8 / 2 % 4` (slot 0, the starting server, at point
0). -/
theorem servingCore_normal_of_table (sv sr : Option String) (tbl : List String)
    (htbl : serveOrderFor sv sr = some tbl) (hidx : jsIndexOf tbl sv = 0)
    (hfirst : tbl.get? 0 = sv) (wp : Int) (n : Nat) :
    getServingPlayerAtPointCore sv sr wp false (n : Int) =
      .ok (tbl.get? ((n + 1) % 8 / 2 % 4)) := by
  unfold getServingPlayerAtPointCore
  rw [htbl]
  simp only []
  rw [hidx]
  rcases Nat.eq_zero_or_pos n with rfl | hpos
  · rw [if_pos (by norm_num : (((0 : Nat) : Int)) = 0)]
    rw [show (0 + 1) % 8 / 2 % 4 = 0 from rfl, hfirst]
  · rw [if_neg (by exact_mod_cast hpos.ne' : ¬((n : Int) = 0))]
    have h1 : ((n : Int) + 1) = ((n + 1 : Nat) : Int) := by push_cast; ring
    simp only [Bool.false_eq_true, if_false, h1, natCast_tmod8, natCast_fdiv2,
      zero_add, natCast_tmod4, jsGet_natCast]

/-- Overtime serving lookup for win_points 21, from the overtime
threshold 40 on: table slot `(n - 40) % 4`. -/
theorem servingCore_ot21_of_table (sv sr : Option String) (tbl : List String)
    (htbl : serveOrderFor sv sr = some tbl) (hidx : jsIndexOf tbl sv = 0)
    (n : Nat) (hge : 40 ≤ n) :
    getServingPlayerAtPointCore sv sr 21 true (n : Int) =
      .ok (tbl.get? ((n - 40) % 4)) := by
  unfold getServingPlayerAtPointCore
  rw [htbl]
  simp only []
  rw [hidx]
  rw [if_neg (by omega : ¬((n : Int) = 0))]
  have e1 : (21 * 2 - 2 : Int) = 40 := by norm_num
  rw [e1]
  have e2 : ((40 : Int) + 1).tmod 8 = 1 := by decide
  rw [e2]
  have e3 : ((n : Int) - 40) = ((n - 40 : Nat) : Int) := by omega
  rw [e3, natCast_tmod4]
  have e4 : (1 + 2 * ((n - 40) % 4 : Nat) : Int) = ((1 + 2 * ((n - 40) % 4) : Nat) : Int) := by
    push_cast
    ring
  rw [if_pos trivial, e4, natCast_tmod8, natCast_fdiv2, zero_add, natCast_tmod4, jsGet_natCast]
  have e5 : (1 + 2 * ((n - 40) % 4)) % 8 / 2 % 4 = (n - 40) % 4 := by omega
  rw [e5]

/-- Overtime serving lookup for win_points 15, from the overtime
threshold 28 on: table slot `(2 + (n - 28) % 4) % 4`. -/
theorem servingCore_ot15_of_table (sv sr : Option String) (tbl : List String)
    (htbl : serveOrderFor sv sr = some tbl) (hidx : jsIndexOf tbl sv = 0)
    (n : Nat) (hge : 28 ≤ n) :
    getServingPlayerAtPointCore sv sr 15 true (n : Int) =
      .ok (tbl.get? ((2 + (n - 28) % 4) % 4)) := by
  unfold getServingPlayerAtPointCore
  rw [htbl]
  simp only []
  rw [hidx]
  rw [if_neg (by omega : ¬((n : Int) = 0))]
  have e1 : (15 * 2 - 2 : Int) = 28 := by norm_num
  rw [e1]
  have e2 : ((28 : Int) + 1).tmod 8 = 5 := by decide
  rw [e2]
  have e3 : ((n : Int) - 28) = ((n - 28 : Nat) : Int) := by omega
  rw [e3, natCast_tmod4]
  have e4 : (5 + 2 * ((n - 28) % 4 : Nat) : Int) = ((5 + 2 * ((n - 28) % 4) : Nat) : Int) := by
    push_cast
    ring
  rw [if_pos trivial, e4, natCast_tmod8, natCast_fdiv2, zero_add, natCast_tmod4, jsGet_natCast]
  have e5 : (5 + 2 * ((n - 28) % 4)) % 8 / 2 % 4 = (2 + (n - 28) % 4) % 4 := by omega
  rw [e5]

/-- The team-match test only reads the serve info's team field. -/
theorem serveInfoTeamMatches_team_only (tm : String) (s1 s2 : Int)
    (o1 o2 : Bool) (x : Except Unit (Option String)) :
    serveInfoTeamMatchesServer (some ⟨tm, s1, o1⟩) x =
      serveInfoTeamMatchesServer (some ⟨tm, s2, o2⟩) x := by
  unfold serveInfoTeamMatchesServer
  rcases x with e | v
  · rfl
  · rcases v with _ | s <;> rfl

/-- Every valid configuration yields a non-empty starting team. -/
theorem startingTeam_of_valid (sv sr : Option String)
    (hmem : (sv, sr) ∈ validConfigs) :
    ∃ t, getStartingTeam sv = some t ∧ t ≠ "" := by
  fin_cases hmem <;> exact ⟨_, rfl, by decide⟩

/-- Reduce the normal-play team match at any point count to the eight
phase residues, checked in `hchk`/`hzero`. -/
theorem teamMatch_engine_normal (t : String) (tbl : List String)
    (hzero : serveInfoTeamMatchesServer
        (some { team := t, serveNumber := 1, isOvertime := false })
        (.ok (tbl.get? 0)) = true)
    (hchk : ∀ r : Nat, r < 8 →
        serveInfoTeamMatchesServer
          (some { team := if r / 2 % 2 = 0 then (if t = "a" then "b" else "a") else t,
                  serveNumber := 1, isOvertime := false })
          (.ok (tbl.get? ((r + 2) % 8 / 2 % 4))) = true)
    (n : Nat) :
    serveInfoTeamMatchesServer
      (some { team := if n = 0 then t
                      else if (n - 1) / 2 % 2 = 0 then (if t = "a" then "b" else "a") else t,
              serveNumber := if n = 0 then 1 else ((n - 1) % 2 : Nat) + 1,
              isOvertime := false })
      (.ok (tbl.get? ((n + 1) % 8 / 2 % 4))) = true := by
  cases n with
  | zero => simpa using hzero
  | succ m =>
      have h1 : (m + 1 - 1) / 2 % 2 = m % 8 / 2 % 2 := by omega
      have h2 : (m + 1 + 1) % 8 / 2 % 4 = (m % 8 + 2) % 8 / 2 % 4 := by omega
      rw [if_neg (Nat.succ_ne_zero m), if_neg (Nat.succ_ne_zero m), h1, h2]
      rw [serveInfoTeamMatches_team_only _ _ 1 _ false]
      exact hchk (m % 8) (Nat.mod_lt _ (by norm_num))

/-- Reduce the overtime team match to the four table slots, using
that the slot index has the parity of the point count. -/
theorem teamMatch_engine_ot (t : String) (tbl : List String)
    (hchk : ∀ r : Nat, r < 4 →
        serveInfoTeamMatchesServer
          (some { team := if r % 2 = 0 then t else (if t = "a" then "b" else "a"),
                  serveNumber := 1, isOvertime := true })
          (.ok (tbl.get? r)) = true)
    (n idx : Nat) (hidx : idx < 4) (hpar : n % 2 = idx % 2) :
    serveInfoTeamMatchesServer
      (some { team := if n % 2 = 0 then t else (if t = "a" then "b" else "a"),
              serveNumber := 1, isOvertime := true })
      (.ok (tbl.get? idx)) = true := by
  rw [hpar]
  exact hchk idx hidx

/-- The serve-info team coincides with the serving player's team in
normal play, for every valid configuration and point count. -/
theorem serveInfo_team_match_normal :
    ∀ sv sr, (sv, sr) ∈ validConfigs → ∀ (wp : Int) (n : Nat),
      serveInfoTeamMatchesServer
        (getServeInfoCore (getStartingTeam sv) (n : Int) false)
        (getServingPlayerAtPointCore sv sr wp false (n : Int)) = true := by
  intro sv sr hmem wp n
  fin_cases hmem
  · rw [show getStartingTeam (some "a") = some "a" from rfl,
        serveInfoCore_nat "a" (by decide) n,
        servingCore_normal_of_table (some "a") (some "c") ["a", "d", "b", "c"] rfl rfl rfl wp n]
    exact teamMatch_engine_normal "a" ["a", "d", "b", "c"] (by decide) (by decide) n
  · rw [show getStartingTeam (some "a") = some "a" from rfl,
        serveInfoCore_nat "a" (by decide) n,
        servingCore_normal_of_table (some "a") (some "d") ["a", "c", "b", "d"] rfl rfl rfl wp n]
    exact teamMatch_engine_normal "a" ["a", "c", "b", "d"] (by decide) (by decide) n
  · rw [show getStartingTeam (some "b") = some "a" from rfl,
        serveInfoCore_nat "a" (by decide) n,
        servingCore_normal_of_table (some "b") (some "c") ["b", "d", "a", "c"] rfl rfl rfl wp n]
    exact teamMatch_engine_normal "a" ["b", "d", "a", "c"] (by decide) (by decide) n
  · rw [show getStartingTeam (some "b") = some "a" from rfl,
        serveInfoCore_nat "a" (by decide) n,
        servingCore_normal_of_table (some "b") (some "d") ["b", "c", "a", "d"] rfl rfl rfl wp n]
    exact teamMatch_engine_normal "a" ["b", "c", "a", "d"] (by decide) (by decide) n
  · rw [show getStartingTeam (some "c") = some "b" from rfl,
        serveInfoCore_nat "b" (by decide) n,
        servingCore_normal_of_table (some "c") (some "a") ["c", "b", "d", "a"] rfl rfl rfl wp n]
    exact teamMatch_engine_normal "b" ["c", "b", "d", "a"] (by decide) (by decide) n
  · rw [show getStartingTeam (some "c") = some "b" from rfl,
        serveInfoCore_nat "b" (by decide) n,
        servingCore_normal_of_table (some "c") (some "b") ["c", "a", "d", "b"] rfl rfl rfl wp n]
    exact teamMatch_engine_normal "b" ["c", "a", "d", "b"] (by decide) (by decide) n
  · rw [show getStartingTeam (some "d") = some "b" from rfl,
        serveInfoCore_nat "b" (by decide) n,
        servingCore_normal_of_table (some "d") (some "a") ["d", "b", "c", "a"] rfl rfl rfl wp n]
    exact teamMatch_engine_normal "b" ["d", "b", "c", "a"] (by decide) (by decide) n
  · rw [show getStartingTeam (some "d") = some "b" from rfl,
        serveInfoCore_nat "b" (by decide) n,
        servingCore_normal_of_table (some "d") (some "b") ["d", "a", "c", "b"] rfl rfl rfl wp n]
    exact teamMatch_engine_normal "b" ["d", "a", "c", "b"] (by decide) (by decide) n

/-- The serve-info team coincides with the serving player's team in
overtime with win_points 21 from point 40 on. -/
theorem serveInfo_team_match_ot21 :
    ∀ sv sr, (sv, sr) ∈ validConfigs → ∀ n : Nat, 40 ≤ n →
      serveInfoTeamMatchesServer
        (getServeInfoCore (getStartingTeam sv) (n : Int) true)
        (getServingPlayerAtPointCore sv sr 21 true (n : Int)) = true := by
  intro sv sr hmem n hge
  fin_cases hmem
  · rw [show getStartingTeam (some "a") = some "a" from rfl,
        serveInfoCore_ot_nat "a" (by decide) n,
        servingCore_ot21_of_table (some "a") (some "c") ["a", "d", "b", "c"] rfl rfl n hge]
    exact teamMatch_engine_ot "a" ["a", "d", "b", "c"] (by decide) n ((n - 40) % 4) (by omega) (by omega)
  · rw [show getStartingTeam (some "a") = some "a" from rfl,
        serveInfoCore_ot_nat "a" (by decide) n,
        servingCore_ot21_of_table (some "a") (some "d") ["a", "c", "b", "d"] rfl rfl n hge]
    exact teamMatch_engine_ot "a" ["a", "c", "b", "d"] (by decide) n ((n - 40) % 4) (by omega) (by omega)
  · rw [show getStartingTeam (some "b") = some "a" from rfl,
        serveInfoCore_ot_nat "a" (by decide) n,
        servingCore_ot21_of_table (some "b") (some "c") ["b", "d", "a", "c"] rfl rfl n hge]
    exact teamMatch_engine_ot "a" ["b", "d", "a", "c"] (by decide) n ((n - 40) % 4) (by omega) (by omega)
  · rw [show getStartingTeam (some "b") = some "a" from rfl,
        serveInfoCore_ot_nat "a" (by decide) n,
        servingCore_ot21_of_table (some "b") (some "d") ["b", "c", "a", "d"] rfl rfl n hge]
    exact teamMatch_engine_ot "a" ["b", "c", "a", "d"] (by decide) n ((n - 40) % 4) (by omega) (by omega)
  · rw [show getStartingTeam (some "c") = some "b" from rfl,
        serveInfoCore_ot_nat "b" (by decide) n,
        servingCore_ot21_of_table (some "c") (some "a") ["c", "b", "d", "a"] rfl rfl n hge]
    exact teamMatch_engine_ot "b" ["c", "b", "d", "a"] (by decide) n ((n - 40) % 4) (by omega) (by omega)
  · rw [show getStartingTeam (some "c") = some "b" from rfl,
        serveInfoCore_ot_nat "b" (by decide) n,
        servingCore_ot21_of_table (some "c") (some "b") ["c", "a", "d", "b"] rfl rfl n hge]
    exact teamMatch_engine_ot "b" ["c", "a", "d", "b"] (by decide) n ((n - 40) % 4) (by omega) (by omega)
  · rw [show getStartingTeam (some "d") = some "b" from rfl,
        serveInfoCore_ot_nat "b" (by decide) n,
        servingCore_ot21_of_table (some "d") (some "a") ["d", "b", "c", "a"] rfl rfl n hge]
    exact teamMatch_engine_ot "b" ["d", "b", "c", "a"] (by decide) n ((n - 40) % 4) (by omega) (by omega)
  · rw [show getStartingTeam (some "d") = some "b" from rfl,
        serveInfoCore_ot_nat "b" (by decide) n,
        servingCore_ot21_of_table (some "d") (some "b") ["d", "a", "c", "b"] rfl rfl n hge]
    exact teamMatch_engine_ot "b" ["d", "a", "c", "b"] (by decide) n ((n - 40) % 4) (by omega) (by omega)

/-- The serve-info team coincides with the serving player's team in
overtime with win_points 15 from point 28 on. -/
theorem serveInfo_team_match_ot15 :
    ∀ sv sr, (sv, sr) ∈ validConfigs → ∀ n : Nat, 28 ≤ n →
      serveInfoTeamMatchesServer
        (getServeInfoCore (getStartingTeam sv) (n : Int) true)
        (getServingPlayerAtPointCore sv sr 15 true (n : Int)) = true := by
  intro sv sr hmem n hge
  fin_cases hmem
  · rw [show getStartingTeam (some "a") = some "a" from rfl,
        serveInfoCore_ot_nat "a" (by decide) n,
        servingCore_ot15_of_table (some "a") (some "c") ["a", "d", "b", "c"] rfl rfl n hge]
    exact teamMatch_engine_ot "a" ["a", "d", "b", "c"] (by decide) n ((2 + (n - 28) % 4) % 4) (by omega) (by omega)
  · rw [show getStartingTeam (some "a") = some "a" from rfl,
        serveInfoCore_ot_nat "a" (by decide) n,
        servingCore_ot15_of_table (some "a") (some "d") ["a", "c", "b", "d"] rfl rfl n hge]
    exact teamMatch_engine_ot "a" ["a", "c", "b", "d"] (by decide) n ((2 + (n - 28) % 4) % 4) (by omega) (by omega)
  · rw [show getStartingTeam (some "b") = some "a" from rfl,
        serveInfoCore_ot_nat "a" (by decide) n,
        servingCore_ot15_of_table (some "b") (some "c") ["b", "d", "a", "c"] rfl rfl n hge]
    exact teamMatch_engine_ot "a" ["b", "d", "a", "c"] (by decide) n ((2 + (n - 28) % 4) % 4) (by omega) (by omega)
  · rw [show getStartingTeam (some "b") = some "a" from rfl,
        serveInfoCore_ot_nat "a" (by decide) n,
        servingCore_ot15_of_table (some "b") (some "d") ["b", "c", "a", "d"] rfl rfl n hge]
    exact teamMatch_engine_ot "a" ["b", "c", "a", "d"] (by decide) n ((2 + (n - 28) % 4) % 4) (by omega) (by omega)
  · rw [show getStartingTeam (some "c") = some "b" from rfl,
        serveInfoCore_ot_nat "b" (by decide) n,
        servingCore_ot15_of_table (some "c") (some "a") ["c", "b", "d", "a"] rfl rfl n hge]
    exact teamMatch_engine_ot "b" ["c", "b", "d", "a"] (by decide) n ((2 + (n - 28) % 4) % 4) (by omega) (by omega)
  · rw [show getStartingTeam (some "c") = some "b" from rfl,
        serveInfoCore_ot_nat "b" (by decide) n,
        servingCore_ot15_of_table (some "c") (some "b") ["c", "a", "d", "b"] rfl rfl n hge]
    exact teamMatch_engine_ot "b" ["c", "a", "d", "b"] (by decide) n ((2 + (n - 28) % 4) % 4) (by omega) (by omega)
  · rw [show getStartingTeam (some "d") = some "b" from rfl,
        serveInfoCore_ot_nat "b" (by decide) n,
        servingCore_ot15_of_table (some "d") (some "a") ["d", "b", "c", "a"] rfl rfl n hge]
    exact teamMatch_engine_ot "b" ["d", "b", "c", "a"] (by decide) n ((2 + (n - 28) % 4) % 4) (by omega) (by omega)
  · rw [show getStartingTeam (some "d") = some "b" from rfl,
        serveInfoCore_ot_nat "b" (by decide) n,
        servingCore_ot15_of_table (some "d") (some "b") ["d", "a", "c", "b"] rfl rfl n hge]
    exact teamMatch_engine_ot "b" ["d", "a", "c", "b"] (by decide) n ((2 + (n - 28) % 4) % 4) (by omega) (by omega)

/-- C8 (amended): for every valid configuration and every total point
count, `getServeInfo` returns a record whose serve number is 1 or 2 —
1 at point 0, always 1 in overtime, and alternating 1,2 through each
normal double-serve turn — and whose team equals the team of the
player from `getServingPlayerAtPoint`, the latter in normal play for
every win_points and in overtime provided win_points is 15 or 21 and
the point count is at least `win_points*2 - 2`. -/
theorem getServeInfo_refines_rotation :
    ∀ sv sr, (sv, sr) ∈ validConfigs → ∀ (wp : Int) (n : Nat) (ot : Bool),
      (∃ i, getServeInfoCore (getStartingTeam sv) (n : Int) ot = some i ∧
        (i.serveNumber = 1 ∨ i.serveNumber = 2) ∧
        (n = 0 → i.serveNumber = 1) ∧
        (ot = true → i.serveNumber = 1) ∧
        (ot = false → 1 ≤ n → i.serveNumber = (if n % 2 = 1 then 1 else 2))) ∧
      ((ot = false ∨ ((wp = 15 ∨ wp = 21) ∧ 2 * wp - 2 ≤ (n : Int))) →
        serveInfoTeamMatchesServer
          (getServeInfoCore (getStartingTeam sv) (n : Int) ot)
          (getServingPlayerAtPointCore sv sr wp ot (n : Int)) = true) := by
  intro sv sr hmem wp n ot
  obtain ⟨t, ht, ht0⟩ := startingTeam_of_valid sv sr hmem
  constructor
  · cases ot with
    | false =>
        rw [ht, serveInfoCore_nat t ht0]
        refine ⟨_, rfl, ?_, ?_, ?_, ?_⟩
        · dsimp only
          split_ifs <;> omega
        · intro h0
          subst h0
          simp
        · exact fun h => nomatch h
        · intro _ h1
          dsimp only
          rw [if_neg (by omega : ¬ n = 0)]
          split_ifs with hpar <;> omega
    | true =>
        rw [ht, serveInfoCore_ot_nat t ht0]
        refine ⟨_, rfl, Or.inl rfl, fun _ => rfl, fun _ => rfl, ?_⟩
        exact fun h => nomatch h
  · intro hreg
    cases ot with
    | false => exact serveInfo_team_match_normal sv sr hmem wp n
    | true =>
        rcases hreg with h | ⟨hwp, hge⟩
        · exact nomatch h
        · rcases hwp with rfl | rfl
          · exact serveInfo_team_match_ot15 sv sr hmem n (by omega)
          · exact serveInfo_team_match_ot21 sv sr hmem n (by omega)

/-- C8 witness: configuration (a, c) in normal play at point 5: the
serve-info team matches the serving player's team. -/
theorem getServeInfo_refines_rotation_witness :
    serveInfoTeamMatchesServer
      (getServeInfoCore (getStartingTeam (some "a")) ((5 : Nat) : Int) false)
      (getServingPlayerAtPointCore (some "a") (some "c") 21 false ((5 : Nat) : Int)) = true :=
  (getServeInfo_refines_rotation (some "a") (some "c") (by decide) 21 5 false).2
    (Or.inl rfl)

/-- C7 counterexample: on `earlyOvertimeState` the single-set
statistics crash (the serving player is undefined from point index 1
on, so `getPlayerTeam` gives null and `servingTeam.toUpperCase()`
throws) although the set's score history holds two events — no
statistics exist whose sideout opportunities could sum to 2. -/
theorem calculateStatistics_throws_on_early_overtime :
    calculateStatisticsSet earlyOvertimeState 1 = .error () ∧
    (ScoreState.getScoreHistory earlyOvertimeState 1).length = 2 := by
  decide

end Scoreboard
